import Mathlib

/-!
A verification development for the audio/video export utilities of a
radio-drama studio web application.  The definitions below are shallow
embeddings of the TypeScript functions in `src/utils/audioUtils.ts` and
`src/utils/videoUtils.ts`: JavaScript numbers are modelled as rationals
(every concrete value appearing in the theorems is exactly representable
in binary floating point, so the rational model is exact there), typed
arrays as lists, and the `| 0` / `Int16Array` coercions as explicit
truncate-and-wrap operations.
-/

namespace RadioDrama

/-! ## Audio data model

Mirrors the Web Audio `AudioBuffer` as consumed by the export utilities:
a channel count, a frame count, a sample rate and per-channel sample
data. -/

structure AudioBuffer where
  numberOfChannels : ℕ
  length : ℕ
  sampleRate : ℕ
  channelData : List (List ℚ)
deriving DecidableEq, Repr

/-- `buffer.getChannelData(i)` — the sample list of channel `i`. -/
def AudioBuffer.getChannelData (b : AudioBuffer) (i : ℕ) : List ℚ :=
  b.channelData.getD i []

/-- `buffer.duration = length / sampleRate` (seconds). -/
def AudioBuffer.duration (b : AudioBuffer) : ℚ :=
  (b.length : ℚ) / (b.sampleRate : ℚ)

/-! ## JavaScript numeric primitives -/

/-- `Math.max(-1, Math.min(1, s))` — clamp a sample to `[-1, 1]`. -/
def clamp01 (s : ℚ) : ℚ := max (-1) (min 1 s)

/-- Truncation toward zero of a rational, as JavaScript's `ToInteger`. -/
def ratTrunc (q : ℚ) : ℤ := if 0 ≤ q then ⌊q⌋ else -⌊-q⌋

/-- JavaScript's `x | 0`: truncate toward zero, then wrap into the
signed 32-bit range. -/
def toInt32 (q : ℚ) : ℤ := (ratTrunc q + 2 ^ 31) % 2 ^ 32 - 2 ^ 31

/-- Storing a JavaScript number into an `Int16Array` slot: truncate
toward zero, then wrap into the signed 16-bit range. -/
def toInt16 (q : ℚ) : ℤ := (ratTrunc q + 2 ^ 15) % 2 ^ 16 - 2 ^ 15

/-! ## Little-endian byte serialisation (`DataView.setUint16/32 (LE)`) -/

/-- Two little-endian bytes of a 16-bit unsigned write. -/
def u16le (n : ℕ) : List ℕ := [n % 256, n / 256 % 256]

/-- Four little-endian bytes of a 32-bit unsigned write. -/
def u32le (n : ℕ) : List ℕ :=
  [n % 256, n / 2 ^ 8 % 256, n / 2 ^ 16 % 256, n / 2 ^ 24 % 256]

/-- `view.setInt16(_, v, true)` — low 16 bits, little-endian. -/
def i16le (v : ℤ) : List ℕ := u16le ((v % 65536).toNat)

/-! ## Lossless (WAV) encoder — `bufferToWav` -/

/-- The per-sample conversion inside `bufferToWav`'s data loop:
`sample = Math.max(-1, Math.min(1, x));`
`sample = (0.5 + sample < 0 ? sample * 32768 : sample * 32767) | 0;`
(JavaScript operator precedence makes the condition `(0.5 + sample) < 0`.) -/
def wavSample (s : ℚ) : ℤ :=
  toInt32
    (if (1 / 2 : ℚ) + clamp01 s < 0 then clamp01 s * 32768
     else clamp01 s * 32767)

/-- Total byte length of the produced container:
`length = buffer.length * numOfChan * 2 + 44`. -/
def wavByteLength (b : AudioBuffer) : ℕ :=
  b.length * b.numberOfChannels * 2 + 44

/-- The 44-byte RIFF/WAVE header written by `bufferToWav`. -/
def wavHeader (b : AudioBuffer) : List ℕ :=
  u32le 0x46464952 ++
  u32le (wavByteLength b - 8) ++
  u32le 0x45564157 ++
  u32le 0x20746d66 ++
  u32le 16 ++
  u16le 1 ++
  u16le b.numberOfChannels ++
  u32le b.sampleRate ++
  u32le (b.sampleRate * 2 * b.numberOfChannels) ++
  u16le (b.numberOfChannels * 2) ++
  u16le 16 ++
  u32le 0x61746164 ++
  u32le (wavByteLength b - 44)

/-- The data section written by `bufferToWav`'s
`while (pos < buffer.length) { for (i = 0; i < numOfChan; i++) ... }`.
The cursor `pos` is advanced to 44 by the header-writing helpers and is
never reset, so the loop converts frames `44 .. length - 1` only (for
`length <= 44` it never runs); `view.setInt16(44 + offset, ...)` places
the converted samples right after the header, and the remaining
`min(length, 44) * numOfChan * 2` bytes of the zero-initialized
`ArrayBuffer` stay zero. -/
def wavData (b : AudioBuffer) : List ℕ :=
  ((List.range' 44 (b.length - 44)).flatMap fun pos =>
    (List.range b.numberOfChannels).flatMap fun i =>
      i16le (wavSample ((b.getChannelData i).getD pos 0)))
  ++ List.replicate (min b.length 44 * (b.numberOfChannels * 2)) 0

/-- The full byte content of the WAV blob produced by `bufferToWav`. -/
def bufferToWav (b : AudioBuffer) : List ℕ := wavHeader b ++ wavData b

/-! ## Raw PCM decoder — `decodeRawPCM` -/

/-- Reinterpret a 16-bit word as a signed integer (as `Int16Array` does). -/
def sint16 (n : ℕ) : ℤ :=
  if n % 65536 < 32768 then (n % 65536 : ℤ) else (n % 65536 : ℤ) - 65536

/-- `new Int16Array(bytes.buffer)`: consecutive little-endian byte pairs
as signed 16-bit integers (a trailing odd byte is dropped). -/
def bytesToInt16 : List ℕ → List ℤ
  | b0 :: b1 :: rest => sint16 (b0 % 256 + 256 * (b1 % 256)) :: bytesToInt16 rest
  | _ => []

/-- `decodeRawPCM`: split the bytes into 16-bit frames, de-interleave the
channels and scale each integer by `1 / 32768`. -/
def decodeRawPCM (bytes : List ℕ) (sampleRate : ℕ) (numChannels : ℕ) :
    AudioBuffer :=
  let dataInt16 := bytesToInt16 bytes
  let frameCount := dataInt16.length / numChannels
  { numberOfChannels := numChannels
    length := frameCount
    sampleRate := sampleRate
    channelData := (List.range numChannels).map fun channel =>
      (List.range frameCount).map fun i =>
        ((dataInt16.getD (i * numChannels + channel) 0 : ℤ) : ℚ) / 32768 }

/-- Decode the data section of a produced WAV container (the bytes after
the 44-byte header, mapped to floats by dividing by 32768) and re-encode
it with the same encoder. -/
def reencodeWav (b : AudioBuffer) : List ℕ :=
  bufferToWav
    (decodeRawPCM ((bufferToWav b).drop 44) b.sampleRate b.numberOfChannels)

/-! ## Merge — `mergeAudioBuffers` -/

/-- `buffers.reduce((acc, b) => acc + b.duration, 0)`. -/
def totalDuration (bs : List AudioBuffer) : ℚ :=
  bs.foldl (fun acc b => acc + b.duration) 0

/-- `Math.ceil(totalDuration * 44100)` — the frame count of the
`OfflineAudioContext` the merge renders into. -/
def mergeTotalLength (bs : List AudioBuffer) : ℕ :=
  ⌈totalDuration bs * 44100⌉₊

/-- The structural parameters of the rendered output buffer (its sample
contents are produced by the platform's offline renderer, which the
claims never inspect): the code constructs
`new OfflineAudioContext(1, totalLength, 44100)` and returns its
rendering. -/
structure MergedAudio where
  numberOfChannels : ℕ
  length : ℕ
  sampleRate : ℕ
deriving DecidableEq, Repr

/-- `mergeAudioBuffers`: always returns the rendering of a mono
44100 Hz offline context of `mergeTotalLength` frames. -/
def mergeAudioBuffers (bs : List AudioBuffer) : MergedAudio :=
  { numberOfChannels := 1
    length := mergeTotalLength bs
    sampleRate := 44100 }

/-- The `(start time, duration)` pairs (in seconds) scheduled by the
merge loop: `source.start(currentOffset); currentOffset += b.duration`. -/
def mergeScheduleFrom : ℚ → List AudioBuffer → List (ℚ × ℚ)
  | _, [] => []
  | off, b :: rest => (off, b.duration) :: mergeScheduleFrom (off + b.duration) rest

/-- The schedule of the merge loop, starting from offset `0`. -/
def mergeSchedule (bs : List AudioBuffer) : List (ℚ × ℚ) :=
  mergeScheduleFrom 0 bs

/-! ## Lossy (MP3) encoder — `bufferToMp3` -/

/-- The per-sample conversion inside `bufferToMp3`:
`const s = Math.max(-1, Math.min(1, samples[i]));`
`int16Samples[i] = s < 0 ? s * 0x8000 : s * 0x7FFF;`. -/
def mp3Sample (s : ℚ) : ℤ :=
  toInt16
    (if clamp01 s < 0 then clamp01 s * 32768 else clamp01 s * 32767)

/-- The 16-bit integer sequence the lossy encoder consumes:
`buffer.getChannelData(0)` converted element-wise (channel 0 only). -/
def mp3Int16Stream (b : AudioBuffer) : List ℤ :=
  (b.getChannelData 0).map mp3Sample

/-- `subarray(i, i + 1152)` blocks of the sample stream
(`sampleBlockSize = 1152`). -/
def chunks1152 : List ℤ → List (List ℤ)
  | [] => []
  | a :: rest => (a :: rest.take 1151) :: chunks1152 (rest.drop 1151)
termination_by l => l.length
decreasing_by
  simp only [List.length_drop, List.length_cons]
  omega

/-- The external `@breezystack/lamejs` encoder, each stage of which can
throw: importing/constructing the encoder, encoding one block, and
flushing. -/
structure Mp3Api where
  init : Except String Unit
  encodeBlock : List ℤ → Except String (List ℕ)
  flush : Except String (List ℕ)

/-- The body of `bufferToMp3`'s `try` block: initialise, encode each
1152-sample block, flush, keep the non-empty chunks and concatenate. -/
def mp3Encode (api : Mp3Api) (b : AudioBuffer) : Except String (List ℕ) := do
  let _ ← api.init
  let encoded ← (chunks1152 (mp3Int16Stream b)).mapM api.encodeBlock
  let fl ← api.flush
  return ((encoded ++ [fl]).filter fun c => !c.isEmpty).flatten

/-- An encoded audio asset: the blob's bytes plus its MIME kind. -/
structure EncodedAsset where
  bytes : List ℕ
  mime : String
deriving DecidableEq, Repr

/-- `bufferToMp3`: on any failure of the lossy path, `catch` returns
`bufferToWav(buffer)` instead. -/
def bufferToMp3 (api : Mp3Api) (b : AudioBuffer) : EncodedAsset :=
  match mp3Encode api b with
  | .ok data => { bytes := data, mime := ("audio/mp3") }
  | .error _ => { bytes := bufferToWav b, mime := ("audio/wav") }

/-! ## Video rendering — `generateVideoFromScript`

Only the fields `videoUtils.ts` reads for its visual logic are
modelled.  Loaded images and their sources are identified by strings;
the environment `env` models `loadImage` (`none` = `onerror`). -/

structure ScriptItem where
  imageUrl : Option String
  character : Option String
  location : Option String
deriving DecidableEq, Repr

structure CastMember where
  name : String
  imageUrl : Option String
deriving DecidableEq, Repr

structure SceneDefinition where
  name : String
  imageUrl : Option String
deriving DecidableEq, Repr

/-- Fallback 1 of the frame resolution:
`const char = cast.find(c => c.name === item.character);`
`if (char?.imageUrl) imgSrc = char.imageUrl;`. -/
def charFallback (item : ScriptItem) (cast : List CastMember) : Option String :=
  match item.character with
  | some c => (cast.find? fun m => m.name == c).bind CastMember.imageUrl
  | none => none

/-- Fallback 2 of the frame resolution:
`const scene = scenes.find(s => s.name === item.location);`
`if (scene?.imageUrl) imgSrc = scene.imageUrl;`. -/
def sceneFallback (item : ScriptItem) (scenes : List SceneDefinition) :
    Option String :=
  match item.location with
  | some loc => (scenes.find? fun s => s.name == loc).bind SceneDefinition.imageUrl
  | none => none

/-- The value of `imgSrc` after the three sequential
`if (!imgSrc && ...)` stages of the playback loop. -/
def resolveFrame (item : ScriptItem) (cast : List CastMember)
    (scenes : List SceneDefinition) : Option String :=
  match item.imageUrl with
  | some u => some u
  | none =>
    match charFallback item cast with
    | some p => some p
    | none => sceneFallback item scenes

/-- `if (imgSrc && !imgSrc.startsWith('data:')) imgSrc = ...`. -/
def addDataUri (s : String) : String :=
  if s.startsWith ("data:") then s else ("data:image/png;base64,") ++ s

/-- The visual state of the playback loop: the `lastLoadedImage`
variable and the image currently drawn on the canvas (`none` = the
initial black fill). -/
structure VState where
  last : Option String
  surface : Option String
deriving DecidableEq, Repr

/-- One iteration of the playback loop's visual logic: resolve a frame,
try to load it (`env`), draw it on success; on load failure or an
unresolved frame, redraw `lastLoadedImage` if one exists, else leave the
canvas untouched. -/
def videoStep (env : String → Option String) (cast : List CastMember)
    (scenes : List SceneDefinition) (st : VState) (item : ScriptItem) :
    VState :=
  match resolveFrame item cast scenes with
  | some src =>
    match env (addDataUri src) with
    | some img => ⟨some img, some img⟩
    | none =>
      match st.last with
      | some prev => ⟨some prev, some prev⟩
      | none => st
  | none =>
    match st.last with
    | some prev => ⟨some prev, some prev⟩
    | none => st

/-- The successive visual states of the playback loop. -/
def videoRun (env : String → Option String) (cast : List CastMember)
    (scenes : List SceneDefinition) : VState → List ScriptItem → List VState
  | _, [] => []
  | st, it :: rest =>
    let st2 := videoStep env cast scenes st it
    st2 :: videoRun env cast scenes st2 rest

/-- The image shown on the canvas during each cue (starting from the
black canvas with no `lastLoadedImage`). -/
def videoFrames (env : String → Option String) (cast : List CastMember)
    (scenes : List SceneDefinition) (items : List ScriptItem) :
    List (Option String) :=
  (videoRun env cast scenes ⟨none, none⟩ items).map VState.surface

/-! ## Concrete instances used as counterexamples and witnesses -/

/-- A 45-frame mono buffer of constant sample `1/2`; the data loop,
entering with `pos = 44`, converts only frame 44. -/
def wavB0 : AudioBuffer :=
  ⟨1, 45, 24000, [List.replicate 45 (1 / 2)]⟩

/-- A one-sample mono buffer with sample value `1 / 2`. -/
def wavB1 : AudioBuffer := ⟨1, 1, 24000, [[1 / 2]]⟩

/-- A structurally invalid buffer: zero channels (and no channel data),
but five frames of declared length. -/
def malformedBuf : AudioBuffer := ⟨0, 5, 44100, []⟩

/-- A 100-frame 24 kHz mono buffer (positive duration). -/
def posBufA : AudioBuffer := ⟨1, 100, 24000, [[]]⟩

/-- A 50-frame 24 kHz mono buffer (positive duration). -/
def posBufB : AudioBuffer := ⟨1, 50, 24000, [[]]⟩

/-- An external MP3 encoder whose construction throws. -/
def failingMp3Api : Mp3Api :=
  { init := .error ("lamejs import failed")
    encodeBlock := fun _ => .ok []
    flush := .ok [] }

/-- A one-sample mono buffer fed to the lossy encoder. -/
def mp3B0 : AudioBuffer := ⟨1, 1, 24000, [[1 / 4]]⟩

/-- A loader environment in which every image source loads, yielding one
fixed decoded image. -/
def envAll : String → Option String := fun _ => some ("loaded")

/-- Three cues: the first two carry their own images, the third carries
nothing. -/
def itemsW : List ScriptItem :=
  [⟨some ("imgA"), none, none⟩, ⟨some ("imgB"), none, none⟩,
   ⟨none, none, none⟩]

/-! ## Numeric helper lemmas -/

lemma neg_one_le_clamp01 (s : ℚ) : -1 ≤ clamp01 s := le_max_left _ _

lemma clamp01_le_one (s : ℚ) : clamp01 s ≤ 1 := by
  unfold clamp01
  rcases le_total s 1 with h | h
  · exact max_le (by norm_num) (by simp [min_eq_right h, h])
  · exact max_le (by norm_num) (by simp [min_eq_left h])

lemma clamp01_eq_self {s : ℚ} (h1 : -1 ≤ s) (h2 : s ≤ 1) : clamp01 s = s := by
  unfold clamp01
  rw [min_eq_right h2, max_eq_right h1]

lemma ratTrunc_intCast (v : ℤ) : ratTrunc (v : ℚ) = v := by
  unfold ratTrunc
  split
  · exact Int.floor_intCast v
  · rw [← Int.cast_neg, Int.floor_intCast]
    ring

lemma ratTrunc_le_of_le {q : ℚ} {n : ℤ} (hn : 0 ≤ n) (h : q ≤ (n : ℚ)) :
    ratTrunc q ≤ n := by
  unfold ratTrunc
  split
  · calc ⌊q⌋ ≤ ⌊(n : ℚ)⌋ := Int.floor_le_floor h
    _ = n := Int.floor_intCast n
  · have hq : ¬ 0 ≤ q := by assumption
    have : 0 ≤ ⌊-q⌋ := Int.floor_nonneg.mpr (by linarith [not_le.mp hq])
    omega

lemma le_ratTrunc_of_le {q : ℚ} {m : ℤ} (hm : m ≤ 0) (h : (m : ℚ) ≤ q) :
    m ≤ ratTrunc q := by
  unfold ratTrunc
  split
  · have : (0 : ℤ) ≤ ⌊q⌋ := Int.floor_nonneg.mpr (by assumption)
    omega
  · have hfl : ⌊-q⌋ ≤ -m := by
      rw [Int.floor_le_iff]
      push_cast
      linarith
    omega

lemma toInt32_eq {q : ℚ} (h1 : -(32768 : ℚ) ≤ q) (h2 : q ≤ 32767) :
    toInt32 q = ratTrunc q := by
  have hl : (-32768 : ℤ) ≤ ratTrunc q := le_ratTrunc_of_le (by norm_num) (by push_cast; linarith)
  have hr : ratTrunc q ≤ (32767 : ℤ) := ratTrunc_le_of_le (by norm_num) (by push_cast; linarith)
  unfold toInt32
  omega

lemma toInt16_eq {q : ℚ} (h1 : -(32768 : ℚ) ≤ q) (h2 : q ≤ 32767) :
    toInt16 q = ratTrunc q := by
  have hl : (-32768 : ℤ) ≤ ratTrunc q := le_ratTrunc_of_le (by norm_num) (by push_cast; linarith)
  have hr : ratTrunc q ≤ (32767 : ℤ) := ratTrunc_le_of_le (by norm_num) (by push_cast; linarith)
  unfold toInt16
  omega

/-- Closed form of the lossless per-sample conversion: a branch on
`clamped < -1/2` (by operator precedence) followed by truncation toward
zero; the `| 0` wrap never fires. -/
lemma wavSample_eq (s : ℚ) :
    wavSample s =
      if clamp01 s < -(1 / 2) then ratTrunc (clamp01 s * 32768)
      else ratTrunc (clamp01 s * 32767) := by
  have h1 := neg_one_le_clamp01 s
  have h2 := clamp01_le_one s
  unfold wavSample
  by_cases hc : clamp01 s < -(1 / 2)
  · rw [if_pos (by linarith), if_pos hc]
    exact toInt32_eq (by nlinarith) (by nlinarith)
  · rw [if_neg (by push_neg at hc ⊢; linarith), if_neg hc]
    exact toInt32_eq (by nlinarith) (by nlinarith)

/-- Closed form of the lossy per-sample conversion: a branch on
`clamped < 0` followed by truncation toward zero; the `Int16Array` wrap
never fires. -/
lemma mp3Sample_eq (s : ℚ) :
    mp3Sample s =
      if clamp01 s < 0 then ratTrunc (clamp01 s * 32768)
      else ratTrunc (clamp01 s * 32767) := by
  have h1 := neg_one_le_clamp01 s
  have h2 := clamp01_le_one s
  unfold mp3Sample
  by_cases hc : clamp01 s < 0
  · rw [if_pos hc, if_pos hc]
    exact toInt16_eq (by nlinarith) (by nlinarith)
  · rw [if_neg hc, if_neg hc]
    push_neg at hc
    exact toInt16_eq (by nlinarith) (by nlinarith)

lemma wavSample_bounds (s : ℚ) : -32768 ≤ wavSample s ∧ wavSample s ≤ 32767 := by
  have h1 := neg_one_le_clamp01 s
  have h2 := clamp01_le_one s
  rw [wavSample_eq]
  split
  · constructor
    · exact le_ratTrunc_of_le (by norm_num) (by push_cast; nlinarith)
    · exact ratTrunc_le_of_le (by norm_num) (by push_cast; nlinarith)
  · constructor
    · exact le_ratTrunc_of_le (by norm_num) (by push_cast; nlinarith)
    · exact ratTrunc_le_of_le (by norm_num) (by push_cast; nlinarith)

/-! ## Merge helper lemmas -/

lemma duration_nonneg (b : AudioBuffer) : 0 ≤ b.duration := by
  unfold AudioBuffer.duration
  positivity

lemma foldl_add_duration (bs : List AudioBuffer) (a : ℚ) :
    bs.foldl (fun acc b => acc + b.duration) a
      = a + (bs.map AudioBuffer.duration).sum := by
  induction bs generalizing a with
  | nil => simp
  | cons b rest ih =>
    simp only [List.foldl_cons, List.map_cons, List.sum_cons, ih]
    ring

lemma totalDuration_eq_sum (bs : List AudioBuffer) :
    totalDuration bs = (bs.map AudioBuffer.duration).sum := by
  unfold totalDuration
  rw [foldl_add_duration]
  ring

lemma totalDuration_nonneg (bs : List AudioBuffer) : 0 ≤ totalDuration bs := by
  rw [totalDuration_eq_sum]
  apply List.sum_nonneg
  intro x hx
  rcases List.mem_map.mp hx with ⟨b, _, rfl⟩
  exact duration_nonneg b

lemma mergeScheduleFrom_chain (bs : List AudioBuffer) :
    ∀ off : ℚ, List.Chain' (fun p q : ℚ × ℚ => q.1 = p.1 + p.2)
      (mergeScheduleFrom off bs) := by
  induction bs with
  | nil => intro off; simp [mergeScheduleFrom]
  | cons b rest ih =>
    intro off
    rw [mergeScheduleFrom]
    apply List.chain'_cons'.mpr
    refine ⟨?_, ih _⟩
    intro q hq
    cases rest with
    | nil => simp [mergeScheduleFrom] at hq
    | cons c rest' =>
      rw [mergeScheduleFrom, List.head?_cons, Option.mem_some_iff] at hq
      rw [← hq]

lemma mergeScheduleFrom_start_le (bs : List AudioBuffer) :
    ∀ off : ℚ, ∀ p ∈ mergeScheduleFrom off bs, off ≤ p.1 := by
  induction bs with
  | nil => intro off p hp; simp [mergeScheduleFrom] at hp
  | cons b rest ih =>
    intro off p hp
    rw [mergeScheduleFrom, List.mem_cons] at hp
    rcases hp with rfl | hp
    · exact le_refl _
    · have := ih (off + b.duration) p hp
      have hd := duration_nonneg b
      linarith

lemma mergeScheduleFrom_pairwise (bs : List AudioBuffer) :
    ∀ off : ℚ, (mergeScheduleFrom off bs).Pairwise
      (fun p q : ℚ × ℚ => p.1 + p.2 ≤ q.1) := by
  induction bs with
  | nil => intro off; simp [mergeScheduleFrom]
  | cons b rest ih =>
    intro off
    rw [mergeScheduleFrom]
    refine List.Pairwise.cons ?_ (ih _)
    intro q hq
    exact mergeScheduleFrom_start_le rest (off + b.duration) q hq

lemma mergeScheduleFrom_pairwise_lt (bs : List AudioBuffer)
    (h : ∀ b ∈ bs, 0 < b.duration) :
    ∀ off : ℚ, (mergeScheduleFrom off bs).Pairwise
      (fun p q : ℚ × ℚ => p.1 < q.1) := by
  induction bs with
  | nil => intro off; simp [mergeScheduleFrom]
  | cons b rest ih =>
    intro off
    rw [mergeScheduleFrom]
    refine List.Pairwise.cons ?_ (ih (fun c hc => h c (List.mem_cons_of_mem b hc)) _)
    intro q hq
    have h1 := mergeScheduleFrom_start_le rest (off + b.duration) q hq
    have h2 := h b (List.mem_cons_self b rest)
    simp only
    linarith

lemma mergeScheduleFrom_snd (bs : List AudioBuffer) :
    ∀ off : ℚ, (mergeScheduleFrom off bs).map Prod.snd
      = bs.map AudioBuffer.duration := by
  induction bs with
  | nil => intro off; simp [mergeScheduleFrom]
  | cons b rest ih =>
    intro off
    rw [mergeScheduleFrom]
    simp [ih]

/-! ## WAV container helper lemmas -/

lemma wavHeader_length (b : AudioBuffer) : (wavHeader b).length = 44 := rfl

lemma i16le_length (v : ℤ) : (i16le v).length = 2 := rfl

lemma flatMap_const_length {α : Type} (l : List α) (f : α → List ℕ) (k : ℕ)
    (h : ∀ a ∈ l, (f a).length = k) : (l.flatMap f).length = l.length * k := by
  induction l with
  | nil => simp
  | cons a rest ih =>
    rw [List.flatMap_cons, List.length_append, h a (List.mem_cons_self a rest),
      ih (fun x hx => h x (List.mem_cons_of_mem a hx)), List.length_cons]
    ring

lemma wavData_length (b : AudioBuffer) :
    (wavData b).length = b.length * b.numberOfChannels * 2 := by
  have hinner : ∀ pos ∈ List.range' 44 (b.length - 44),
      ((List.range b.numberOfChannels).flatMap fun i =>
        i16le (wavSample ((b.getChannelData i).getD pos 0))).length
        = b.numberOfChannels * 2 := by
    intro pos _
    rw [flatMap_const_length _ _ 2 (fun i _ => i16le_length _), List.length_range]
  unfold wavData
  rw [List.length_append, List.length_replicate,
    flatMap_const_length _ _ (b.numberOfChannels * 2) hinner, List.length_range']
  have hsum : b.length - 44 + min b.length 44 = b.length := by omega
  rw [← Nat.add_mul, hsum, ← Nat.mul_assoc]

/-- For buffers of at most 44 frames the data loop never runs and the
data section is entirely zero. -/
lemma wavData_of_le_44 (b : AudioBuffer) (h : b.length ≤ 44) :
    wavData b = List.replicate (b.length * (b.numberOfChannels * 2)) 0 := by
  unfold wavData
  rw [Nat.sub_eq_zero_of_le h, min_eq_left h]
  simp

lemma bytesToInt16_length : ∀ l : List ℕ, (bytesToInt16 l).length = l.length / 2
  | [] => by simp [bytesToInt16]
  | [_] => by simp [bytesToInt16]
  | b0 :: b1 :: rest => by
    simp only [bytesToInt16, List.length_cons, bytesToInt16_length rest]
    omega

lemma bufferToWav_take_44 (b : AudioBuffer) :
    (bufferToWav b).take 44 = wavHeader b := by
  unfold bufferToWav
  exact List.take_left' (wavHeader_length b)

lemma bufferToWav_drop_44 (b : AudioBuffer) :
    (bufferToWav b).drop 44 = wavData b := by
  unfold bufferToWav
  exact List.drop_left' (wavHeader_length b)

lemma wavHeader_congr {b1 b2 : AudioBuffer}
    (h1 : b1.numberOfChannels = b2.numberOfChannels)
    (h2 : b1.length = b2.length) (h3 : b1.sampleRate = b2.sampleRate) :
    wavHeader b1 = wavHeader b2 := by
  unfold wavHeader wavByteLength
  rw [h1, h2, h3]

/-- The decode of a produced data section recovers the frame count. -/
lemma decode_wavData_length (b : AudioBuffer) (h : 0 < b.numberOfChannels) :
    (decodeRawPCM (wavData b) b.sampleRate b.numberOfChannels).length
      = b.length := by
  show (bytesToInt16 (wavData b)).length / b.numberOfChannels = b.length
  rw [bytesToInt16_length, wavData_length,
    Nat.mul_div_cancel _ (by norm_num : 0 < 2),
    Nat.mul_div_cancel _ h]

/-- Re-encoding a decoded container reproduces the 44-byte header. -/
lemma wav_reencode_header (b : AudioBuffer) (h : 0 < b.numberOfChannels) :
    (reencodeWav b).take 44 = (bufferToWav b).take 44 := by
  unfold reencodeWav
  rw [bufferToWav_take_44, bufferToWav_take_44, bufferToWav_drop_44]
  exact wavHeader_congr rfl (decode_wavData_length b h) rfl

/-- For buffers of at most 44 frames the decode/re-encode round trip is
byte-identical: the data section is all zeros both times. -/
lemma wav_reencode_small (b : AudioBuffer) (h : 0 < b.numberOfChannels)
    (hlen : b.length ≤ 44) : reencodeWav b = bufferToWav b := by
  unfold reencodeWav
  rw [bufferToWav_drop_44]
  have hdl := decode_wavData_length b h
  have hdn : (decodeRawPCM (wavData b) b.sampleRate
      b.numberOfChannels).numberOfChannels = b.numberOfChannels := rfl
  have hdata : wavData (decodeRawPCM (wavData b) b.sampleRate
      b.numberOfChannels) = wavData b := by
    rw [wavData_of_le_44 (decodeRawPCM (wavData b) b.sampleRate
      b.numberOfChannels) (by rw [hdl]; exact hlen), hdl, hdn]
    exact (wavData_of_le_44 b hlen).symm
  unfold bufferToWav
  rw [wavHeader_congr hdn hdl rfl, hdata]

/-- The requantization map of a decode/encode round trip on a stored
16-bit value `v`: the value drifts one step toward zero unless it is `0`
or lies in `[-32768, -16385]`. -/
lemma wav_requant (v : ℤ) (h1 : -32768 ≤ v) (h2 : v ≤ 32767) :
    wavSample ((v : ℚ) / 32768)
      = if 1 ≤ v then v - 1
        else if -16384 ≤ v ∧ v ≤ -1 then v + 1
        else v := by
  have h1q : (-32768 : ℚ) ≤ (v : ℚ) := by exact_mod_cast h1
  have h2q : (v : ℚ) ≤ 32767 := by exact_mod_cast h2
  have hb1 : -1 ≤ (v : ℚ) / 32768 := by
    rw [le_div_iff (by norm_num : (0 : ℚ) < 32768)]
    linarith
  have hb2 : (v : ℚ) / 32768 ≤ 1 := by
    rw [div_le_one (by norm_num : (0 : ℚ) < 32768)]
    linarith
  rw [wavSample_eq, clamp01_eq_self hb1 hb2]
  by_cases hlow : v ≤ -16385
  · have hlowq : (v : ℚ) ≤ -16385 := by exact_mod_cast hlow
    have hc : (v : ℚ) / 32768 < -(1 / 2) := by
      rw [div_lt_iff (by norm_num : (0 : ℚ) < 32768)]
      linarith
    rw [if_pos hc, div_mul_cancel₀ _ (by norm_num : (32768 : ℚ) ≠ 0),
      ratTrunc_intCast, if_neg (by omega), if_neg (by omega)]
  · have hlowq : (-16384 : ℚ) ≤ (v : ℚ) := by
      have : (-16384 : ℤ) ≤ v := by omega
      exact_mod_cast this
    have hc : ¬ (v : ℚ) / 32768 < -(1 / 2) := by
      rw [not_lt, le_div_iff (by norm_num : (0 : ℚ) < 32768)]
      linarith
    rw [if_neg hc]
    have hq : (v : ℚ) / 32768 * 32767 = (v * 32767 : ℚ) / 32768 := by
      ring
    rw [hq]
    rcases lt_trichotomy v 0 with hneg | rfl | hpos
    · have hvle : v ≤ -1 := by omega
      have hge : -16384 ≤ v := by omega
      have hvq1 : (v : ℚ) ≤ -1 := by exact_mod_cast hvle
      have hvq2 : (-16384 : ℚ) ≤ (v : ℚ) := by exact_mod_cast hge
      have hqneg : ¬ (0 : ℚ) ≤ (v * 32767 : ℚ) / 32768 := by
        rw [not_le, div_lt_iff (by norm_num : (0 : ℚ) < 32768)]
        nlinarith [hvq1]
      unfold ratTrunc
      rw [if_neg hqneg]
      have harg : -((v * 32767 : ℚ) / 32768) = (-(v : ℚ) * 32767) / 32768 := by
        ring
      rw [harg]
      have hfloor : ⌊(-(v : ℚ) * 32767) / 32768⌋ = -v - 1 := by
        rw [Int.floor_eq_iff]
        constructor
        · rw [le_div_iff (by norm_num : (0 : ℚ) < 32768)]
          push_cast
          linarith
        · rw [div_lt_iff (by norm_num : (0 : ℚ) < 32768)]
          push_cast
          linarith
      rw [hfloor, if_neg (by omega), if_pos ⟨hge, hvle⟩]
      ring
    · norm_num [ratTrunc]
    · have hvq : (1 : ℚ) ≤ (v : ℚ) := by exact_mod_cast hpos
      have hv2q : (v : ℚ) ≤ 32767 := by exact_mod_cast h2
      have hq0 : (0 : ℚ) ≤ (v * 32767 : ℚ) / 32768 := by
        apply div_nonneg _ (by norm_num)
        nlinarith [hvq]
      unfold ratTrunc
      rw [if_pos hq0]
      have hfloor : ⌊(v * 32767 : ℚ) / 32768⌋ = v - 1 := by
        rw [Int.floor_eq_iff]
        constructor
        · rw [le_div_iff (by norm_num : (0 : ℚ) < 32768)]
          push_cast
          linarith
        · rw [div_lt_iff (by norm_num : (0 : ℚ) < 32768)]
          push_cast
          linarith
      rw [hfloor, if_pos (by omega)]

/-! ## Video rendering helper lemmas -/

section VideoLemmas

variable (env : String → Option String) (cast : List CastMember)
variable (scenes : List SceneDefinition)

lemma videoRun_length (items : List ScriptItem) :
    ∀ st : VState, (videoRun env cast scenes st items).length = items.length := by
  induction items with
  | nil => intro st; rfl
  | cons it rest ih =>
    intro st
    rw [videoRun, List.length_cons, List.length_cons, ih]

lemma videoRun_getElem (items : List ScriptItem) :
    ∀ (st : VState) (k : ℕ), k < items.length →
      (videoRun env cast scenes st items)[k]?
        = some ((items.take (k + 1)).foldl (videoStep env cast scenes) st) := by
  induction items with
  | nil => intro st k hk; simp at hk
  | cons it rest ih =>
    intro st k hk
    rw [videoRun]
    cases k with
    | zero => simp
    | succ k =>
      rw [List.getElem?_cons_succ, ih _ k (by simpa using hk), List.take_succ_cons,
        List.foldl_cons]

lemma videoStep_inv (st : VState) (it : ScriptItem)
    (h : st.surface = st.last) :
    (videoStep env cast scenes st it).surface
      = (videoStep env cast scenes st it).last := by
  rcases hres : resolveFrame it cast scenes with _ | src
  · rcases hl : st.last with _ | prev
    · simp [videoStep, hres, hl, h]
    · simp [videoStep, hres, hl]
  · rcases he : env (addDataUri src) with _ | img
    · rcases hl : st.last with _ | prev
      · simp [videoStep, hres, he, hl, h]
      · simp [videoStep, hres, he, hl]
    · simp [videoStep, hres, he]

lemma videoStep_last_some (st : VState) (it : ScriptItem) (x : String)
    (hx : st.last = some x) :
    ∃ y, (videoStep env cast scenes st it).last = some y := by
  rcases hres : resolveFrame it cast scenes with _ | src
  · exact ⟨x, by simp [videoStep, hres, hx]⟩
  · rcases he : env (addDataUri src) with _ | img
    · exact ⟨x, by simp [videoStep, hres, he, hx]⟩
    · exact ⟨img, by simp [videoStep, hres, he]⟩

lemma foldl_videoStep_inv (items : List ScriptItem) :
    ∀ st : VState, st.surface = st.last →
      ((items.foldl (videoStep env cast scenes) st).surface
        = (items.foldl (videoStep env cast scenes) st).last) := by
  induction items with
  | nil => intro st h; exact h
  | cons it rest ih =>
    intro st h
    rw [List.foldl_cons]
    exact ih _ (videoStep_inv env cast scenes st it h)

lemma videoStep_surface_of_fail (st : VState) (it : ScriptItem)
    (h : st.surface = st.last)
    (hfail : resolveFrame it cast scenes = none ∨
      ∃ s0, resolveFrame it cast scenes = some s0 ∧ env (addDataUri s0) = none) :
    (videoStep env cast scenes st it).surface = st.surface := by
  rcases hfail with hres | ⟨s0, hres, henv⟩
  · rcases hl : st.last with _ | prev
    · simp [videoStep, hres, hl]
    · simp [videoStep, hres, hl, h]
  · rcases hl : st.last with _ | prev
    · simp [videoStep, hres, henv, hl]
    · simp [videoStep, hres, henv, hl, h]

lemma foldl_take_succ (items : List ScriptItem) (k : ℕ) (it : ScriptItem)
    (hit : items[k]? = some it) (st : VState) :
    (items.take (k + 1)).foldl (videoStep env cast scenes) st
      = videoStep env cast scenes
          ((items.take k).foldl (videoStep env cast scenes) st) it := by
  rw [List.take_succ, hit, Option.toList_some, List.foldl_append, List.foldl_cons,
    List.foldl_nil]

end VideoLemmas

/-! ## Claim theorems -/

/-- C1 (counterexample): at the clamped sample `-1/4` the lossless
encoder writes `-8191` (truncation with scale 32767, because the branch
condition is `(0.5 + sample) < 0`), not `round(-1/4 * 32768) = -8192` as
the claim states for negative samples. -/
theorem wavSample_not_round_scaled :
    wavSample (-1 / 4) = -8191 ∧ round ((-1 / 4 : ℚ) * 32768) = -8192 ∧
    wavSample (-1 / 4) ≠ round ((-1 / 4 : ℚ) * 32768) := by
  have h1 : wavSample (-1 / 4) = -8191 := by
    norm_num [wavSample, clamp01, ratTrunc, toInt32]
  have h2 : round ((-1 / 4 : ℚ) * 32768) = -8192 := by
    norm_num [round_eq]
  exact ⟨h1, h2, by rw [h1, h2]; decide⟩

/-- C1 (amended): the lossless encoder clamps the sample to `[-1, 1]`
and then writes the truncation toward zero of `s * 32768` when the
clamped value is below `-1/2` and of `s * 32767` otherwise; every result
lies inside `[-32768, 32767]`, so no further clamping occurs. -/
theorem wavSample_characterization (s : ℚ) :
    wavSample s =
      (if clamp01 s < -(1 / 2) then ratTrunc (clamp01 s * 32768)
       else ratTrunc (clamp01 s * 32767)) ∧
    -32768 ≤ wavSample s ∧ wavSample s ≤ 32767 :=
  ⟨wavSample_eq s, (wavSample_bounds s).1, (wavSample_bounds s).2⟩

/-- C2: the merged output's frame count is exactly
`ceil(total duration * 44100)` (cues without audio are filtered out
before the merge and contribute nothing), so the merged duration matches
the summed duration of the audio-bearing cues to within one sample at
44100 Hz. -/
theorem merge_length_and_duration (timeline : List (Option AudioBuffer)) :
    (mergeAudioBuffers (timeline.filterMap id)).length
      = ⌈totalDuration (timeline.filterMap id) * 44100⌉₊ ∧
    totalDuration (timeline.filterMap id)
      ≤ ((mergeAudioBuffers (timeline.filterMap id)).length : ℚ) / 44100 ∧
    ((mergeAudioBuffers (timeline.filterMap id)).length : ℚ) / 44100
      < totalDuration (timeline.filterMap id) + 1 / 44100 := by
  set bs := timeline.filterMap id with hbs
  have hD : 0 ≤ totalDuration bs := totalDuration_nonneg bs
  have hlen : ((mergeAudioBuffers bs).length : ℚ) = (⌈totalDuration bs * 44100⌉₊ : ℚ) := by
    rfl
  refine ⟨rfl, ?_, ?_⟩
  · rw [le_div_iff (by norm_num : (0 : ℚ) < 44100), hlen]
    exact Nat.le_ceil _
  · rw [div_lt_iff (by norm_num : (0 : ℚ) < 44100), hlen]
    have h2 : (⌈totalDuration bs * 44100⌉₊ : ℚ) < totalDuration bs * 44100 + 1 :=
      Nat.ceil_lt_add_one (by positivity)
    nlinarith

/-- C3: the merge loop's schedule is contiguous — each cue starts
exactly where the previous one ends (offsets accumulate by the exact
duration, not a quantized estimate), the scheduled ranges never overlap,
the scheduled lengths are exactly the cues' durations, and for
audio-bearing (positive-duration) cues the start offsets are strictly
increasing. -/
theorem merge_schedule_contiguous (bs : List AudioBuffer) :
    List.Chain' (fun p q : ℚ × ℚ => q.1 = p.1 + p.2) (mergeSchedule bs) ∧
    (mergeSchedule bs).Pairwise (fun p q : ℚ × ℚ => p.1 + p.2 ≤ q.1) ∧
    (mergeSchedule bs).map Prod.snd = bs.map AudioBuffer.duration ∧
    ((∀ b ∈ bs, 0 < b.duration) →
      (mergeSchedule bs).Pairwise (fun p q : ℚ × ℚ => p.1 < q.1)) :=
  ⟨mergeScheduleFrom_chain bs 0, mergeScheduleFrom_pairwise bs 0,
    mergeScheduleFrom_snd bs 0, fun h => mergeScheduleFrom_pairwise_lt bs h 0⟩

/-- C3 (witness): the strict-increase part instantiated on two concrete
positive-duration buffers. -/
theorem merge_schedule_contiguous_witness :
    (∀ b ∈ [posBufA, posBufB], 0 < b.duration) ∧
    (mergeSchedule [posBufA, posBufB]).Pairwise (fun p q : ℚ × ℚ => p.1 < q.1) := by
  have hpos : ∀ b ∈ [posBufA, posBufB], 0 < b.duration := by
    intro b hb
    rcases List.mem_cons.mp hb with rfl | hb
    · norm_num [posBufA, AudioBuffer.duration]
    · rcases List.mem_cons.mp hb with rfl | hb
      · norm_num [posBufB, AudioBuffer.duration]
      · simp at hb
  exact ⟨hpos, (merge_schedule_contiguous [posBufA, posBufB]).2.2.2 hpos⟩

/-- C4 (counterexample): on a timeline containing a structurally invalid
cue (zero channels), the merge does not fail — it returns a complete
merged buffer; no `MalformedAudioCue` error path exists in the code. -/
theorem merge_returns_on_malformed_cue :
    malformedBuf.numberOfChannels = 0 ∧
    mergeAudioBuffers [malformedBuf]
      = { numberOfChannels := 1, length := 5, sampleRate := 44100 } := by
  refine ⟨rfl, ?_⟩
  rw [mergeAudioBuffers]
  norm_num [mergeTotalLength, totalDuration, AudioBuffer.duration, malformedBuf]

/-- C4 (amended): `mergeAudioBuffers` performs no validation of its
cues: even when the timeline contains a malformed (zero-channel) cue, it
returns the full merged buffer of the usual shape instead of failing. -/
theorem merge_no_validation (bs : List AudioBuffer) (b : AudioBuffer)
    (hmem : b ∈ bs) (hmal : b.numberOfChannels = 0) :
    mergeAudioBuffers bs
      = { numberOfChannels := 1, length := mergeTotalLength bs,
          sampleRate := 44100 } := rfl

/-- C4 (witness): the amended statement instantiated on a singleton
timeline holding the malformed buffer. -/
theorem merge_no_validation_witness :
    (malformedBuf ∈ [malformedBuf] ∧ malformedBuf.numberOfChannels = 0) ∧
    mergeAudioBuffers [malformedBuf]
      = { numberOfChannels := 1, length := mergeTotalLength [malformedBuf],
          sampleRate := 44100 } :=
  ⟨⟨List.mem_singleton.mpr rfl, rfl⟩,
    merge_no_validation [malformedBuf] malformedBuf (List.mem_singleton.mpr rfl) rfl⟩

/-- C5 (counterexample): at the clamped sample `-1/4` the lossy path
converts to `-8192` (scale 32768, branch `s < 0`) while the lossless
path converts to `-8191` (scale 32767, branch `(0.5 + s) < 0`): the two
integer conversions are not the same function. -/
theorem mp3_wav_conversion_disagree :
    mp3Sample (-1 / 4) = -8192 ∧ wavSample (-1 / 4) = -8191 ∧
    mp3Sample (-1 / 4) ≠ wavSample (-1 / 4) := by
  have h1 : mp3Sample (-1 / 4) = -8192 := by
    norm_num [mp3Sample, clamp01, ratTrunc, toInt16]
  have h2 : wavSample (-1 / 4) = -8191 := by
    norm_num [wavSample, clamp01, ratTrunc, toInt32]
  exact ⟨h1, h2, by rw [h1, h2]; decide⟩

/-- C5 (amended): the lossy encoder consumes channel 0 converted by
`trunc(s * 32768)` for clamped `s < 0` and `trunc(s * 32767)`
otherwise; this agrees with the lossless conversion for all clamped
samples outside `[-1/2, 0)`, and can differ by one inside that
interval. -/
theorem mp3Sample_characterization (s : ℚ) :
    (mp3Sample s =
      if clamp01 s < 0 then ratTrunc (clamp01 s * 32768)
      else ratTrunc (clamp01 s * 32767)) ∧
    ((0 ≤ clamp01 s ∨ clamp01 s < -(1 / 2)) → mp3Sample s = wavSample s) := by
  refine ⟨mp3Sample_eq s, fun h => ?_⟩
  rw [mp3Sample_eq, wavSample_eq]
  rcases h with h0 | hlt
  · rw [if_neg (not_lt.mpr h0), if_neg (by rw [not_lt]; linarith)]
  · rw [if_pos (by linarith), if_pos hlt]

/-- C5 (witness): agreement of the two conversions at the sample `1/3`. -/
theorem mp3Sample_characterization_witness :
    (0 ≤ clamp01 (1 / 3) ∨ clamp01 (1 / 3) < -(1 / 2)) ∧
    mp3Sample (1 / 3) = wavSample (1 / 3) := by
  have h : (0 : ℚ) ≤ clamp01 (1 / 3) := by norm_num [clamp01]
  exact ⟨Or.inl h, (mp3Sample_characterization (1 / 3)).2 (Or.inl h)⟩

/-- C6 (counterexample): the fallback asset is not a no-data-loss
lossless encoding of the buffer.  With a failing encoder, the export of
`mp3B0` (one frame of value `1/4`) is its WAV container — but that
container's data section is `[0, 0]`: the data loop entered with
`pos = 44 > length` and never ran, so the nonzero sample (whose faithful
conversion would store `8191`) is absent from the asset. -/
theorem mp3_fallback_loses_data :
    bufferToMp3 failingMp3Api mp3B0
      = { bytes := bufferToWav mp3B0, mime := ("audio/wav") } ∧
    (bufferToWav mp3B0).drop 44 = [0, 0] ∧
    mp3B0.getChannelData 0 = [1 / 4] ∧
    wavSample (1 / 4) = 8191 := by
  refine ⟨rfl, ?_, rfl, by norm_num [wavSample, clamp01, ratTrunc, toInt32]⟩
  rw [bufferToWav_drop_44, wavData_of_le_44 mp3B0 (by norm_num [mp3B0])]
  rfl

/-- C6 (amended): if any stage of the lossy encoder fails,
`bufferToMp3` returns exactly the lossless encoder's output for the same
buffer rather than propagating a failure, and in every case it returns
some valid container — lossy on success, lossless otherwise.  (The
fallback is `bufferToWav`'s output, which itself omits the buffer's
first 44 frames, so it is not a loss-free copy of the samples.) -/
theorem mp3_fallback_to_wav (api : Mp3Api) (b : AudioBuffer) :
    (∀ e, mp3Encode api b = .error e →
      bufferToMp3 api b = { bytes := bufferToWav b, mime := ("audio/wav") }) ∧
    (bufferToMp3 api b = { bytes := bufferToWav b, mime := ("audio/wav") } ∨
      ∃ d, mp3Encode api b = .ok d ∧
        bufferToMp3 api b = { bytes := d, mime := ("audio/mp3") }) := by
  constructor
  · intro e he
    unfold bufferToMp3
    rw [he]
  · rcases hd : mp3Encode api b with e | d
    · left
      unfold bufferToMp3
      rw [hd]
    · right
      refine ⟨d, rfl, ?_⟩
      unfold bufferToMp3
      rw [hd]

/-- C6 (witness): with an encoder whose construction throws, the export
of a concrete buffer is exactly its lossless container. -/
theorem mp3_fallback_to_wav_witness :
    mp3Encode failingMp3Api mp3B0 = .error ("lamejs import failed") ∧
    bufferToMp3 failingMp3Api mp3B0
      = { bytes := bufferToWav mp3B0, mime := ("audio/wav") } :=
  ⟨rfl, (mp3_fallback_to_wav failingMp3Api mp3B0).1 _ rfl⟩

/-- C7 (counterexample): `wavB0` holds 45 frames of constant `1/2`; the
encoder's data loop (entering with `pos = 44`) stores only frame 44 as
`16383` (bytes `255, 63`) and zero-pads the rest.  Decoding and
re-encoding drops 44 further frames, so the re-encoded container stores
`0` at that position: the round trip changes byte 44 from `255` to `0`
and is not byte-identical. -/
theorem wav_roundtrip_not_byte_identical :
    reencodeWav wavB0 ≠ bufferToWav wavB0 := by
  have hsamp : wavSample (1 / 2) = 16383 := by
    norm_num [wavSample, clamp01, ratTrunc, toInt32]
  have hsamp0 : wavSample 0 = 0 := by
    norm_num [wavSample, clamp01, ratTrunc, toInt32]
  have hhalf : (wavB0.getChannelData 0)[44]? = some (1 / 2) := by
    show (List.replicate 45 ((1 : ℚ) / 2))[44]? = some (1 / 2)
    norm_num
  have hdat0 : wavData wavB0 = 255 :: 63 :: List.replicate 88 0 := by
    unfold wavData
    have hl : wavB0.length = 45 := rfl
    have hc : wavB0.numberOfChannels = 1 := rfl
    rw [hl, hc]
    norm_num [List.range'_succ, List.range'_zero, List.range_succ, hhalf,
      hsamp, i16le, u16le]
    omega
  have hints : bytesToInt16 (255 :: 63 :: List.replicate 88 0)
      = 16383 :: List.replicate 44 0 := by
    norm_num [bytesToInt16, sint16, List.replicate]
  have hre : (reencodeWav wavB0).drop 44
      = wavData (decodeRawPCM (255 :: 63 :: List.replicate 88 0)
          wavB0.sampleRate wavB0.numberOfChannels) := by
    unfold reencodeWav
    rw [bufferToWav_drop_44 wavB0, hdat0, bufferToWav_drop_44]
  have hch : (decodeRawPCM (255 :: 63 :: List.replicate 88 0) wavB0.sampleRate
      wavB0.numberOfChannels).numberOfChannels = 1 := rfl
  have hlen45 : (decodeRawPCM (255 :: 63 :: List.replicate 88 0) wavB0.sampleRate
      wavB0.numberOfChannels).length = 45 := by
    show (bytesToInt16 (255 :: 63 :: List.replicate 88 0)).length
        / wavB0.numberOfChannels = 45
    rw [hints]
    simp [wavB0]
  have hv0 : ((decodeRawPCM (255 :: 63 :: List.replicate 88 0) wavB0.sampleRate
      wavB0.numberOfChannels).getChannelData 0)[44]? = some 0 := by
    norm_num [decodeRawPCM, AudioBuffer.getChannelData, hints, wavB0,
      List.getElem?_range (show (0 : ℕ) < 1 by norm_num),
      List.getElem?_range (show (44 : ℕ) < 45 by norm_num)]
  have hdat1 : wavData (decodeRawPCM (255 :: 63 :: List.replicate 88 0)
      wavB0.sampleRate wavB0.numberOfChannels) = 0 :: 0 :: List.replicate 88 0 := by
    unfold wavData
    rw [hlen45, hch]
    norm_num [List.range'_succ, List.range'_zero, List.range_succ, hv0,
      hsamp0, i16le, u16le]
  intro heq
  have hdrop := congrArg (List.drop 44) heq
  rw [hre, hdat1, bufferToWav_drop_44, hdat0] at hdrop
  simp at hdrop

/-- C7 (amended): the 44-byte header is deterministic — re-encoding a
decoded container reproduces it byte-for-byte — but byte identity of the
whole container fails in general, for two reasons: re-converting a
decoded sample value `v / 32768` is not idempotent (the per-sample
conversion yields `v - 1` for `1 ≤ v ≤ 32767`, `v + 1` for
`-16384 ≤ v ≤ -1`, and `v` only when `v = 0` or `v ≤ -16385`), and the
data loop enters with `pos = 44`, so each encode pass additionally drops
the buffer's first 44 frames and zero-pads the tail.  Byte identity does
hold in the degenerate case of buffers with at most 44 frames, whose
data section is entirely zeros. -/
theorem wav_reencode_characterization :
    (∀ v : ℤ, -32768 ≤ v → v ≤ 32767 →
      wavSample ((v : ℚ) / 32768)
        = if 1 ≤ v then v - 1
          else if -16384 ≤ v ∧ v ≤ -1 then v + 1
          else v) ∧
    (∀ b : AudioBuffer, 0 < b.numberOfChannels →
      (reencodeWav b).take 44 = (bufferToWav b).take 44) ∧
    (∀ b : AudioBuffer, 0 < b.numberOfChannels → b.length ≤ 44 →
      reencodeWav b = bufferToWav b) :=
  ⟨wav_requant, wav_reencode_header, wav_reencode_small⟩

/-- C7 (witness): the requantization map at the stored value `5`
(drifting to `4`), plus header stability and small-buffer byte identity
on the concrete one-frame buffer `wavB1`. -/
theorem wav_reencode_characterization_witness :
    ((-32768 : ℤ) ≤ 5 ∧ (5 : ℤ) ≤ 32767 ∧
      wavSample (((5 : ℤ) : ℚ) / 32768)
        = if 1 ≤ (5 : ℤ) then 5 - 1
          else if -16384 ≤ (5 : ℤ) ∧ (5 : ℤ) ≤ -1 then 5 + 1
          else 5) ∧
    (0 < wavB1.numberOfChannels ∧
      (reencodeWav wavB1).take 44 = (bufferToWav wavB1).take 44) ∧
    (wavB1.length ≤ 44 ∧ reencodeWav wavB1 = bufferToWav wavB1) :=
  ⟨⟨by norm_num, by norm_num,
      wav_reencode_characterization.1 5 (by norm_num) (by norm_num)⟩,
    ⟨by norm_num [wavB1],
      wav_reencode_characterization.2.1 wavB1 (by norm_num [wavB1])⟩,
    ⟨by norm_num [wavB1],
      wav_reencode_characterization.2.2 wavB1 (by norm_num [wavB1])
        (by norm_num [wavB1])⟩⟩

/-- C8: the imperative fallthrough of the visual frame resolution equals
the declarative priority list "cue image, then character portrait, then
scene background" (first `some` wins), and it resolves to `none` exactly
when all three candidates are absent. -/
theorem resolveFrame_priority (item : ScriptItem) (cast : List CastMember)
    (scenes : List SceneDefinition) :
    resolveFrame item cast scenes
      = ([item.imageUrl, charFallback item cast,
          sceneFallback item scenes].findSome? id) ∧
    (resolveFrame item cast scenes = none ↔
      item.imageUrl = none ∧ charFallback item cast = none ∧
        sceneFallback item scenes = none) := by
  rcases hi : item.imageUrl with _ | u <;>
    rcases hc : charFallback item cast with _ | p <;>
      rcases hs : sceneFallback item scenes with _ | q <;>
        simp [resolveFrame, hi, hc, hs, List.findSome?]

/-- C9: in the video playback loop, (a) a cue whose frame resolution
yields nothing (or whose image fails to load) shows exactly the frame of
the previous cue, and (b) once some cue has shown an image, every later
cue shows some image — the surface is never blank again. -/
theorem videoFrames_hold_and_no_blank (env : String → Option String)
    (cast : List CastMember) (scenes : List SceneDefinition)
    (items : List ScriptItem) :
    (∀ k it, items[k + 1]? = some it →
      (resolveFrame it cast scenes = none ∨
        ∃ s0, resolveFrame it cast scenes = some s0 ∧
          env (addDataUri s0) = none) →
      (videoFrames env cast scenes items)[k + 1]?
        = (videoFrames env cast scenes items)[k]?) ∧
    (∀ i j img, i ≤ j → j < items.length →
      (videoFrames env cast scenes items)[i]? = some (some img) →
      ∃ img2, (videoFrames env cast scenes items)[j]? = some (some img2)) := by
  constructor
  · intro k it hit hfail
    rcases List.getElem?_eq_some.mp hit with ⟨hk1, _⟩
    have hk : k < items.length := by omega
    unfold videoFrames
    rw [List.getElem?_map, List.getElem?_map,
      videoRun_getElem env cast scenes items _ _ hk1,
      videoRun_getElem env cast scenes items _ _ hk]
    simp only [Option.map_some']
    rw [foldl_take_succ env cast scenes items (k + 1) it hit]
    congr 1
    exact videoStep_surface_of_fail env cast scenes _ it
      (foldl_videoStep_inv env cast scenes _ _ rfl) hfail
  · intro i j img hij hj hframe
    have hi : i < items.length := by omega
    unfold videoFrames at hframe ⊢
    rw [List.getElem?_map, videoRun_getElem env cast scenes items _ _ hi] at hframe
    simp only [Option.map_some'] at hframe
    have hsurf : ((items.take (i + 1)).foldl (videoStep env cast scenes)
        ⟨none, none⟩).surface = some img := Option.some_inj.mp hframe
    have hlastbase : ∃ y, ((items.take (i + 1)).foldl (videoStep env cast scenes)
        ⟨none, none⟩).last = some y := by
      refine ⟨img, ?_⟩
      rw [← foldl_videoStep_inv env cast scenes _ _ rfl]
      exact hsurf
    have hmono : ∀ m, i ≤ m → m < items.length →
        ∃ y, ((items.take (m + 1)).foldl (videoStep env cast scenes)
          ⟨none, none⟩).last = some y := by
      intro m
      induction m with
      | zero =>
        intro him _
        have hi0 : i = 0 := by omega
        exact hi0 ▸ hlastbase
      | succ m ih =>
        intro him hm1
        by_cases heq : i = m + 1
        · exact heq ▸ hlastbase
        · have him' : i ≤ m := by omega
          have hm : m < items.length := by omega
          rcases ih him' hm with ⟨y, hy⟩
          obtain ⟨it2, hit2⟩ : ∃ it2, items[m + 1]? = some it2 := by
            rw [List.getElem?_eq_getElem hm1]
            exact ⟨_, rfl⟩
          rw [foldl_take_succ env cast scenes items (m + 1) it2 hit2]
          exact videoStep_last_some env cast scenes _ it2 y hy
    rcases hmono j hij hj with ⟨y, hy⟩
    refine ⟨y, ?_⟩
    rw [List.getElem?_map, videoRun_getElem env cast scenes items _ _ hj,
      Option.map_some']
    rw [foldl_videoStep_inv env cast scenes _ _ rfl, hy]

/-- C9 (witness): on a three-cue timeline whose first two cues carry
images and whose third carries nothing, the frame of cue 3 equals the
frame of cue 2, and cue 3 still shows an image. -/
theorem videoFrames_hold_and_no_blank_witness :
    (itemsW[2]? = some ⟨none, none, none⟩ ∧
      resolveFrame ⟨none, none, none⟩ ([] : List CastMember)
        ([] : List SceneDefinition) = none) ∧
    (videoFrames envAll [] [] itemsW)[2]? = (videoFrames envAll [] [] itemsW)[1]? ∧
    ((1 ≤ 2 ∧ 2 < itemsW.length ∧
        (videoFrames envAll [] [] itemsW)[1]? = some (some ("loaded"))) ∧
      ∃ img2, (videoFrames envAll [] [] itemsW)[2]? = some (some img2)) := by
  have h2 : itemsW[2]? = some ⟨none, none, none⟩ := rfl
  have hres : resolveFrame ⟨none, none, none⟩ ([] : List CastMember)
      ([] : List SceneDefinition) = none := rfl
  have hfr1 : (videoFrames envAll [] [] itemsW)[1]? = some (some ("loaded")) := rfl
  refine ⟨⟨h2, hres⟩, ?_, ⟨by norm_num, by norm_num [itemsW], hfr1⟩, ?_⟩
  · exact (videoFrames_hold_and_no_blank envAll [] [] itemsW).1 1 _ h2 (Or.inl hres)
  · exact (videoFrames_hold_and_no_blank envAll [] [] itemsW).2 1 2 ("loaded")
      (by norm_num) (by norm_num [itemsW]) hfr1

/-- C10: for every (non-empty) list of input buffers, whatever their
channel counts and sample rates, the merged buffer has exactly one
channel and a 44100 Hz sample rate. -/
theorem merge_output_is_mono_44100 (bs : List AudioBuffer) (hne : bs ≠ []) :
    (mergeAudioBuffers bs).numberOfChannels = 1 ∧
    (mergeAudioBuffers bs).sampleRate = 44100 :=
  ⟨rfl, rfl⟩

/-- C10 (witness): instantiated on a singleton list holding a stereo
48 kHz buffer. -/
theorem merge_output_is_mono_44100_witness :
    ([(⟨2, 10, 48000, [[0], [0]]⟩ : AudioBuffer)] ≠ []) ∧
    (mergeAudioBuffers [(⟨2, 10, 48000, [[0], [0]]⟩ : AudioBuffer)]).numberOfChannels = 1 ∧
    (mergeAudioBuffers [(⟨2, 10, 48000, [[0], [0]]⟩ : AudioBuffer)]).sampleRate = 44100 := by
  have hne : ([(⟨2, 10, 48000, [[0], [0]]⟩ : AudioBuffer)] : List AudioBuffer) ≠ [] := by
    simp
  exact ⟨hne, merge_output_is_mono_44100 _ hne⟩

end RadioDrama
